import Mathlib

/-!
Verification of `src/vialib/EuclideanDist3d.c` (3D Euclidean distance
transform, Saito-Toriwaki style, from the VIA repository).

The C file contains three functions:
* `VEuclideanDist3d` — validating dispatcher;
* `VEDistFloat3d`    — engine producing float ("real-valued") output;
* `VEDistShort3d`    — engine producing short (10x fixed-point) output.

Shallow embedding conventions:
* A volume is indexed by `(band, row, column) = (b, r, c)`.
* The binary source image is `Vol := ℕ → ℕ → ℕ → Bool`
  (`true` = foreground, i.e. `VPixel(src,b,r,c,VBit) == 1`).
* The squared-distance working field (`dest` before the final
  square-root loop) is `Field := ℕ → ℕ → ℕ → ℕ`.  All values the C
  code stores in it are exact non-negative integers (squared
  distances); `double`/`VFloat` hold such integers exactly in the
  ranges relevant here, and `VShort` holds them exactly whenever they
  are representable, so exact `ℕ` arithmetic is the faithful
  idealized semantics.
* `(int) sqrt((double) n)` for an integer `n` is the integer square
  root `⌊√n⌋`: the C `sqrt` is correctly rounded and for the integer
  magnitudes reachable here (below 2^32) the gap between `√n` and the
  nearest integer it could be confused with exceeds the rounding
  error by many orders of magnitude.  We embed it as `isqrt` below.
* Each pass of the C code writes one "lane" (a row for pass 1, a
  (band,column) line for pass 2, a (row,column) line for pass 3)
  while reading only the previous pass's values of that same lane
  (pass 2 and 3 first copy the lane into `array` and then overwrite
  it), so each pass is a pure function of the previous field and is
  embedded pointwise.
-/

namespace VIA

/-- Image dimensions `nbands × nrows × ncols`. -/
structure VDims where
  nbands : ℕ
  nrows : ℕ
  ncols : ℕ
deriving DecidableEq

/-- A binary (bit) volume: `true` means foreground. -/
abbrev Vol := ℕ → ℕ → ℕ → Bool

/-- A squared-distance field (the `dest` image before finalization). -/
abbrev Field := ℕ → ℕ → ℕ → ℕ

/-- `(a - b)²` for C `int` subtraction of two indices, i.e. the square
of the absolute difference. -/
def dsq (a b : ℕ) : ℕ := (max a b - min a b) ^ 2

/-- Fuel-driven integer square root (binary method on `n/4`); used to
embed `(int) sqrt((double) n)`.  Structural recursion on the fuel so
that the kernel can evaluate it. -/
def isqrtF : ℕ → ℕ → ℕ
  | 0, n => n
  | fuel + 1, n =>
    if n < 2 then n
    else
      let s := isqrtF fuel (n / 4)
      if (2 * s + 1) ^ 2 ≤ n then 2 * s + 1 else 2 * s

/-- Integer square root `⌊√n⌋`, the embedding of `(int) sqrt(n)`. -/
def isqrt (n : ℕ) : ℕ := isqrtF n n

theorem isqrtF_spec : ∀ (fuel n : ℕ), n ≤ fuel →
    (isqrtF fuel n) ^ 2 ≤ n ∧ n < (isqrtF fuel n + 1) ^ 2 := by
  intro fuel
  induction fuel with
  | zero =>
    intro n hn
    interval_cases n
    simp [isqrtF]
  | succ f ih =>
    intro n hn
    by_cases h2 : n < 2
    · interval_cases n <;> simp [isqrtF]
    · have h4 : n / 4 ≤ f := by omega
      obtain ⟨hlo, hhi⟩ := ih (n / 4) h4
      set s := isqrtF f (n / 4) with hs
      have hval : isqrtF (f + 1) n =
          if (2 * s + 1) ^ 2 ≤ n then 2 * s + 1 else 2 * s := by
        simp [isqrtF, h2, hs]
      by_cases hc : (2 * s + 1) ^ 2 ≤ n
      · rw [hval, if_pos hc]
        refine ⟨hc, ?_⟩
        have : n / 4 + 1 ≤ (s + 1) ^ 2 := hhi
        have hv : n < 4 * (s + 1) ^ 2 := by omega
        have : (2 * s + 1 + 1) ^ 2 = 4 * (s + 1) ^ 2 := by ring
        omega
      · rw [hval, if_neg hc]
        constructor
        · have : s ^ 2 ≤ n / 4 := hlo
          have h4s : (2 * s) ^ 2 = 4 * s ^ 2 := by ring
          omega
        · omega

theorem isqrt_sq_le (n : ℕ) : (isqrt n) ^ 2 ≤ n :=
  (isqrtF_spec n n le_rfl).1

theorem lt_isqrt_add_one_sq (n : ℕ) : n < (isqrt n + 1) ^ 2 :=
  (isqrtF_spec n n le_rfl).2

theorem isqrt_unique {n q : ℕ} (h1 : q ^ 2 ≤ n) (h2 : n < (q + 1) ^ 2) :
    isqrt n = q := by
  have ha := isqrt_sq_le n
  have hb := lt_isqrt_add_one_sq n
  by_contra hne
  rcases Nat.lt_or_ge (isqrt n) q with h | h
  · have : isqrt n + 1 ≤ q := h
    have := Nat.pow_le_pow_left this 2
    omega
  · have : q + 1 ≤ isqrt n := by omega
    have := Nat.pow_le_pow_left this 2
    omega

theorem isqrt_mono {m n : ℕ} (h : m ≤ n) : isqrt m ≤ isqrt n := by
  have h1 := isqrt_sq_le m
  have h2 := lt_isqrt_add_one_sq n
  have h3 : (isqrt m) ^ 2 < (isqrt n + 1) ^ 2 := by omega
  by_contra hc
  have h4 : isqrt n + 1 ≤ isqrt m := by omega
  have := Nat.pow_le_pow_left h4 2
  omega

/-! ## Column pass (pass 1)

Embeds the forward scan
`cc1 = c; while (cc1 < ncols && *srcpix++ == 0) cc1++;`
and the backward scan
`cc2 = c; while (cc2 >= 0 && *srcpix-- == 0) cc2--;`
of both engines.  The backward scan result lives in `ℤ` because the C
loop can exit with `cc2 == -1`. -/

/-- Forward scan, structurally recursing on the remaining length
`ncols - cc`: returns the final value of `cc1`. -/
def scanFwdAux (row : ℕ → Bool) : ℕ → ℕ → ℕ
  | cc, 0 => cc
  | cc, rem + 1 => if row cc then cc else scanFwdAux row (cc + 1) rem

/-- Final value of `cc1` after the forward while-loop started at `c`. -/
def scanFwd (row : ℕ → Bool) (ncols c : ℕ) : ℕ :=
  scanFwdAux row c (ncols - c)

/-- Final value of `cc2` after the backward while-loop started at `c`
(`-1` when no foreground voxel was met down to column 0). -/
def scanBwd (row : ℕ → Bool) : ℕ → ℤ
  | 0 => if row 0 then 0 else -1
  | cc + 1 => if row (cc + 1) then (cc + 1 : ℕ) else scanBwd row cc

/-- Column-pass value at one voxel, float engine
(`VEDistFloat3d`, first pass).  Note the backward clamp condition is
`cc2 <= 0` in this engine. -/
def colDistFloat (row : ℕ → Bool) (ncols c : ℕ) : ℕ :=
  if row c then 0
  else
    let cc1 := scanFwd row ncols c
    let d1 := if ncols ≤ cc1 then ncols else cc1 - c
    let cc2 := scanBwd row c
    let d2 := if cc2 ≤ 0 then ncols else c - cc2.toNat
    let d := if d1 ≤ d2 then d1 else d2
    d * d

/-- Column-pass value at one voxel, short engine
(`VEDistShort3d`, first pass, the `n1:` branch).  Here the backward
clamp condition is `cc2 < 0`. -/
def colDistShort (row : ℕ → Bool) (ncols c : ℕ) : ℕ :=
  if row c then 0
  else
    let cc1 := scanFwd row ncols c
    let d1 := if ncols ≤ cc1 then ncols else cc1 - c
    let cc2 := scanBwd row c
    let d2 := if cc2 < 0 then ncols else c - cc2.toNat
    let d := if d1 < d2 then d1 else d2
    d * d

/-- Whether the row `(b,r,·)` contains any foreground voxel — the
short engine's pre-scan `for (c=0;c<ncols;c++) if (VPixel(..)==1) goto n1;`. -/
def rowHasFg (row : ℕ → Bool) (ncols : ℕ) : Bool :=
  (List.range ncols).any row

/-- First pass of `VEDistFloat3d` (lines 87–120). -/
def VEDistFloat3d_pass1 (src : Vol) (ncols : ℕ) : Field :=
  fun b r c => colDistFloat (src b r) ncols c

/-- First pass of `VEDistShort3d` (lines 235–271), including the
empty-row fast path that stores `0.5 * nrows * nrows` (truncated by
the assignment to a `VShort` lvalue, hence `nrows² / 2`). -/
def VEDistShort3d_pass1 (src : Vol) (nrows ncols : ℕ) : Field :=
  fun b r c =>
    if rowHasFg (src b r) ncols then colDistShort (src b r) ncols c
    else nrows ^ 2 / 2

/-! ## Axis-minimization passes (passes 2 and 3)

Both engines run the same loop shape over a lane copied into the
scratch `array`:
```
dmin = dmax; g = sqrt(array[i]);
istart = i - (int)g (- 1 for the band pass);  if (istart < 0) istart = 0;
iend = i + (int)g + 1;  if (iend >= n) iend = n;
for (j = istart; j < iend; j++) {
  u = array[j] + (i-j)*(i-j);  if (u < dmin) dmin = u;
}
```
`dmax` is `VPixelMaxValue(dest)`: `32767` for the short engine and
`FLT_MAX` for the float engine; we model the latter by `2^128`
(`FLT_MAX < 2^128`, and every candidate value built from C `int`
dimensions is far smaller, so only "larger than any candidate"
matters). -/

/-- `VShort` maximum, `VPixelMaxValue` of the short destination. -/
def shortDmax : ℕ := 32767

/-- Stand-in for `FLT_MAX`, `VPixelMaxValue` of the float destination. -/
def floatDmax : ℕ := 2 ^ 128

/-- The inner `for (j = istart; j < iend; ...)` minimum loop. -/
def minScan (dmax : ℕ) (arr : ℕ → ℕ) (i istart iend : ℕ) : ℕ :=
  (List.range' istart (iend - istart)).foldl
    (fun dmin j => if arr j + dsq i j < dmin then arr j + dsq i j else dmin)
    dmax

/-- One lane element of an axis-minimization pass: `margin` is `0` for
the row pass and `1` for the band pass (whose `istart` is
`b - (int)g - 1`).  Nat subtraction performs the `if (istart < 0)
istart = 0;` clamp. -/
def axisMin (dmax margin n : ℕ) (arr : ℕ → ℕ) (i : ℕ) : ℕ :=
  let g := isqrt (arr i)
  minScan dmax arr i (i - g - margin) (min (i + g + 1) n)

/-- Second pass of `VEDistFloat3d` (lines 122–151): row minimization
at fixed `(b,c)`, skipping foreground voxels. -/
def VEDistFloat3d_pass2 (src : Vol) (nrows : ℕ) (f : Field) : Field :=
  fun b r c =>
    if src b r c then f b r c
    else axisMin floatDmax 0 nrows (fun rr => f b rr c) r

/-- Third pass of `VEDistFloat3d` (lines 153–184): band minimization
at fixed `(r,c)`, with the extra `- 1` in `istart`. -/
def VEDistFloat3d_pass3 (src : Vol) (nbands : ℕ) (f : Field) : Field :=
  fun b r c =>
    if src b r c then f b r c
    else axisMin floatDmax 1 nbands (fun bb => f bb r c) b

/-- Second pass of `VEDistShort3d` (lines 273–298). -/
def VEDistShort3d_pass2 (src : Vol) (nrows : ℕ) (f : Field) : Field :=
  fun b r c =>
    if src b r c then f b r c
    else axisMin shortDmax 0 nrows (fun rr => f b rr c) r

/-- Third pass of `VEDistShort3d` (lines 301–328). -/
def VEDistShort3d_pass3 (src : Vol) (nbands : ℕ) (f : Field) : Field :=
  fun b r c =>
    if src b r c then f b r c
    else axisMin shortDmax 1 nbands (fun bb => f bb r c) b

/-! ## Full pipelines and finalization -/

/-- Squared-distance field produced by the three passes of
`VEDistFloat3d` (the `dest` contents just before the final elementwise
square-root loop, lines 188–192). -/
def VEDistFloat3d_sq (src : Vol) (d : VDims) : Field :=
  VEDistFloat3d_pass3 src d.nbands
    (VEDistFloat3d_pass2 src d.nrows (VEDistFloat3d_pass1 src d.ncols))

/-- Squared-distance field produced by the three passes of
`VEDistShort3d` (the `dest` contents just before the final rounding
loop, lines 332–336). -/
def VEDistShort3d_sq (src : Vol) (d : VDims) : Field :=
  VEDistShort3d_pass3 src d.nbands
    (VEDistShort3d_pass2 src d.nrows (VEDistShort3d_pass1 src d.nrows d.ncols))

/-- Finalization of the short engine:
`(VShort) VRint((double) 10.0 * sqrt((double) v))` where Vista's
`VRint` rounds to nearest, ties away from zero.  For a field value
`v : ℕ` the exact real result is `⌊10·√v + 1/2⌋` (no tie can occur:
`400·v` is even while odd squares are odd, and the double-precision
error is orders of magnitude below the distance to the nearest
half-integer), which equals `(⌊√(400·v)⌋ + 1) / 2`; the cast to
`VShort` is the identity because the result is at most `1811` for
`v ≤ 32767`.  The equality with `⌊10·√v + 1/2⌋` is proved in the
theorem for claim C8. -/
def shortFinalize (v : ℕ) : ℕ := (isqrt (400 * v) + 1) / 2

/-- Final output of `VEDistShort3d`. -/
def VEDistShort3d_out (src : Vol) (d : VDims) : Field :=
  fun b r c => shortFinalize (VEDistShort3d_sq src d b r c)

/-- The float engine's finalization (lines 188–192) replaces every
field value by its square root; since the square root of a natural
number is irrational in general we state it as a relation between the
squared field and a real-valued output. -/
def VEDistFloat3d_finalizes (src : Vol) (d : VDims)
    (out : ℕ → ℕ → ℕ → ℝ) : Prop :=
  ∀ b r c, out b r c = Real.sqrt (VEDistFloat3d_sq src d b r c)

/-! ## Dispatcher (`VEuclideanDist3d`) and image-level state

`VError` in Vista is fatal: it never returns, so on the invalid-input
path nothing downstream runs and the caller-supplied destination is
untouched.  We model the call as a function from the caller's
destination-buffer state to an `Except` result paired with the new
state. -/

/-- Pixel representation kinds relevant to the dispatcher (`ubyte`
stands for any non-bit, non-short, non-float representation). -/
inductive VRepnKind where
  | bit | ubyte | short | float
deriving DecidableEq

/-- The errors raised by `VEuclideanDist3d` via `VError`. -/
inductive VErr where
  | invalidInputKind | unsupportedOutputKind
deriving DecidableEq

/-- An image: a representation tag, dimensions, and raw pixel data
(for a bit image a pixel is foreground iff its value is `1`). -/
structure VImage where
  repn : VRepnKind
  dims : VDims
  data : ℕ → ℕ → ℕ → ℕ

/-- Reading a `VImage` as a bit volume: `VPixel(src,b,r,c,VBit) == 1`. -/
def toVol (img : VImage) : Vol := fun b r c => img.data b r c == 1

/-- Result image of `VEDistShort3d` as a `VImage`. -/
def VEDistShort3d_img (src : VImage) : VImage :=
  { repn := VRepnKind.short, dims := src.dims,
    data := VEDistShort3d_out (toVol src) src.dims }

/-- Result image of `VEDistFloat3d` as a `VImage`; we carry the
squared field as the payload (the actual output is its elementwise
square root, which determines and is determined by it). -/
def VEDistFloat3d_img (src : VImage) : VImage :=
  { repn := VRepnKind.float, dims := src.dims,
    data := VEDistFloat3d_sq (toVol src) src.dims }

/-- The dispatcher `VEuclideanDist3d` (lines 39–55): validates the
input representation, then routes on the requested output
representation.  The second component is the caller-supplied
destination buffer after the call (overwritten only when an engine
ran). -/
def VEuclideanDist3d (src : VImage) (dest : Option VImage)
    (repn : VRepnKind) : Except VErr VImage × Option VImage :=
  if src.repn ≠ VRepnKind.bit then
    (Except.error VErr.invalidInputKind, dest)
  else if repn = VRepnKind.short then
    let out := VEDistShort3d_img src
    (Except.ok out, some out)
  else if repn = VRepnKind.float then
    let out := VEDistFloat3d_img src
    (Except.ok out, some out)
  else
    (Except.error VErr.unsupportedOutputKind, dest)

/-- Engine-invocation state for frame reasoning: the source image and
the destination field the engine writes into. -/
structure EngineState where
  src : VImage
  dest : Field

/-- `VEDistShort3d` as a state transformer: every assignment in the C
function targets `dest`, the scratch `array`, or locals, so the
embedding rewrites only the `dest` component. -/
def VEDistShort3d_run (s : EngineState) : EngineState :=
  { s with dest := VEDistShort3d_out (toVol s.src) s.src.dims }

/-- `VEDistFloat3d` as a state transformer (squared field as payload,
as in `VEDistFloat3d_img`). -/
def VEDistFloat3d_run (s : EngineState) : EngineState :=
  { s with dest := VEDistFloat3d_sq (toVol s.src) s.src.dims }

/-! ## Reference (brute-force) distance and reflections -/

/-- All foreground coordinates of a volume, row-major. -/
def fgList (src : Vol) (d : VDims) : List (ℕ × ℕ × ℕ) :=
  (List.range d.nbands).flatMap fun bb =>
    (List.range d.nrows).flatMap fun rr =>
      (List.range d.ncols).filterMap fun cc =>
        if src bb rr cc then some (bb, rr, cc) else none

/-- Brute-force minimum squared Euclidean distance from `(b,r,c)` to
any foreground voxel (`none` when the volume has no foreground). -/
def naiveDistSq (src : Vol) (d : VDims) (b r c : ℕ) : Option ℕ :=
  ((fgList src d).map
    (fun t => dsq b t.1 + dsq r t.2.1 + dsq c t.2.2)).min?

/-- Reflection of a volume along the column axis. -/
def reflectCols (ncols : ℕ) (v : Vol) : Vol :=
  fun b r c => v b r (ncols - 1 - c)

/-- `val` is the minimum of `cand` over the index window `[lo, hi)`:
a lower bound that is attained.  (Decidable, so witnesses can be
checked by evaluation.) -/
def IsMinOver (lo hi : ℕ) (cand : ℕ → ℕ) (val : ℕ) : Prop :=
  (∀ j ∈ Finset.Ico lo hi, val ≤ cand j) ∧ ∃ j ∈ Finset.Ico lo hi, val = cand j

/-- Concrete volume used in concrete-input theorems: a single
foreground voxel at the origin `(0,0,0)`. -/
def srcOne : Vol := fun b r c => b == 0 && r == 0 && c == 0

/-- Constant field used in witnesses. -/
def fConst2 : Field := fun _ _ _ => 2

/-- A single row with foreground exactly at column 0 (read it with
`ncols = 2`: the row is `[1, 0]`). -/
def rowC3 : ℕ → Bool := fun c => c == 0

/-- Non-bit image used to exercise the dispatcher's validation. -/
def imgU : VImage :=
  { repn := VRepnKind.ubyte, dims := ⟨1, 1, 1⟩, data := fun _ _ _ => 0 }

/-! ## Lemmas about the minimum loop -/

theorem foldlMin_le_init (g : ℕ → ℕ) (l : List ℕ) (a : ℕ) :
    l.foldl (fun acc x => if g x < acc then g x else acc) a ≤ a := by
  induction l generalizing a with
  | nil => simp
  | cons x xs ih =>
    simp only [List.foldl_cons]
    refine le_trans (ih _) ?_
    by_cases h : g x < a <;> simp [h]
    omega

theorem foldlMin_le_mem (g : ℕ → ℕ) (l : List ℕ) (a : ℕ) {x : ℕ}
    (hx : x ∈ l) :
    l.foldl (fun acc y => if g y < acc then g y else acc) a ≤ g x := by
  induction l generalizing a with
  | nil => cases hx
  | cons y ys ih =>
    simp only [List.foldl_cons]
    rcases List.mem_cons.mp hx with h | h
    · subst h
      refine le_trans (foldlMin_le_init g ys _) ?_
      by_cases hgy : g x < a <;> simp [hgy]
      omega
    · exact ih _ h

theorem foldlMin_eq_or (g : ℕ → ℕ) (l : List ℕ) (a : ℕ) :
    l.foldl (fun acc y => if g y < acc then g y else acc) a = a ∨
      ∃ x ∈ l, l.foldl (fun acc y => if g y < acc then g y else acc) a = g x := by
  induction l generalizing a with
  | nil => left; rfl
  | cons y ys ih =>
    simp only [List.foldl_cons]
    rcases ih (if g y < a then g y else a) with h | ⟨x, hx, hfx⟩
    · by_cases hgy : g y < a
      · right
        exact ⟨y, List.mem_cons_self y ys, by rw [h, if_pos hgy]⟩
      · left
        rw [h, if_neg hgy]
    · right
      exact ⟨x, List.mem_cons_of_mem y hx, hfx⟩

theorem minScan_le_init (dmax : ℕ) (arr : ℕ → ℕ) (i istart iend : ℕ) :
    minScan dmax arr i istart iend ≤ dmax :=
  foldlMin_le_init (fun j => arr j + dsq i j) _ _

theorem minScan_le (dmax : ℕ) (arr : ℕ → ℕ) (i istart iend : ℕ) {j : ℕ}
    (h1 : istart ≤ j) (h2 : j < iend) :
    minScan dmax arr i istart iend ≤ arr j + dsq i j :=
  foldlMin_le_mem (fun j => arr j + dsq i j) _ _
    (List.mem_range'_1.mpr ⟨h1, by omega⟩)

theorem minScan_eq_or (dmax : ℕ) (arr : ℕ → ℕ) (i istart iend : ℕ) :
    minScan dmax arr i istart iend = dmax ∨
      ∃ j, istart ≤ j ∧ j < iend ∧
        minScan dmax arr i istart iend = arr j + dsq i j := by
  rcases foldlMin_eq_or (fun j => arr j + dsq i j)
      (List.range' istart (iend - istart)) dmax with h | ⟨x, hx, he⟩
  · left; exact h
  · right
    have hm := List.mem_range'_1.mp hx
    exact ⟨x, hm.1, by omega, he⟩

theorem dsq_self (i : ℕ) : dsq i i = 0 := by simp [dsq]

theorem axisMin_le_self (dmax margin n : ℕ) (arr : ℕ → ℕ) {i : ℕ}
    (hi : i < n) : axisMin dmax margin n arr i ≤ arr i := by
  have h := minScan_le dmax arr i (i - isqrt (arr i) - margin)
    (min (i + isqrt (arr i) + 1) n) (j := i) (by omega)
    (lt_min_iff.mpr ⟨by omega, hi⟩)
  simpa [axisMin, dsq_self] using h

theorem axisMin_spec (dmax margin n : ℕ) (arr : ℕ → ℕ) {i : ℕ}
    (hi : i < n) (hle : arr i ≤ dmax) :
    IsMinOver (i - isqrt (arr i) - margin) (min (i + isqrt (arr i) + 1) n)
      (fun j => arr j + dsq i j) (axisMin dmax margin n arr i) := by
  have hmem : i ∈ Finset.Ico (i - isqrt (arr i) - margin)
      (min (i + isqrt (arr i) + 1) n) :=
    Finset.mem_Ico.mpr ⟨by omega, lt_min_iff.mpr ⟨by omega, hi⟩⟩
  constructor
  · intro j hj
    have := Finset.mem_Ico.mp hj
    exact minScan_le dmax arr i _ _ this.1 this.2
  · rcases minScan_eq_or dmax arr i (i - isqrt (arr i) - margin)
        (min (i + isqrt (arr i) + 1) n) with h | ⟨j, h1, h2, he⟩
    · refine ⟨i, hmem, ?_⟩
      have hself := axisMin_le_self dmax margin n arr hi
      have hd : axisMin dmax margin n arr i = dmax := h
      have ha : arr i = dmax := le_antisymm hle (hd ▸ hself)
      simp only [dsq_self, Nat.add_zero]
      omega
    · exact ⟨j, Finset.mem_Ico.mpr ⟨h1, h2⟩, he⟩

/-! ## Helper lemmas for the finalization arithmetic -/

theorem isqrt_eq_natSqrt (n : ℕ) : isqrt n = Nat.sqrt n :=
  isqrt_unique (Nat.sqrt_le' n) (Nat.lt_succ_sqrt' n)

/-- `shortFinalize` is exactly round-half-away-from-zero of `10·√v`
(for non-negative arguments this is `⌊x + 1/2⌋`). -/
theorem shortFinalize_eq_round (v : ℕ) :
    (shortFinalize v : ℤ) = ⌊(10 * Real.sqrt v + 1 / 2 : ℝ)⌋ := by
  have h400 : Real.sqrt ((400 * v : ℕ) : ℝ) = 20 * Real.sqrt v := by
    push_cast
    rw [show ((400 : ℝ) * v) = 20 ^ 2 * v by norm_num,
      Real.sqrt_mul (by positivity), Real.sqrt_sq (by norm_num)]
  set s : ℕ := isqrt (400 * v) with hs
  have hlo : (s : ℝ) ≤ 20 * Real.sqrt v := by
    have h := Real.nat_sqrt_le_real_sqrt (a := 400 * v)
    rw [h400] at h
    rw [hs, isqrt_eq_natSqrt]
    exact_mod_cast h
  have hhi : 20 * Real.sqrt v < (s : ℝ) + 1 := by
    have h := Real.real_sqrt_lt_nat_sqrt_succ (a := 400 * v)
    rw [h400] at h
    rw [hs, isqrt_eq_natSqrt]
    exact_mod_cast h
  have hcast : ((shortFinalize v : ℕ) : ℤ) = ((s : ℤ) + 1) / 2 := by
    rw [shortFinalize, ← hs]
    omega
  have h2t : 2 * (((s : ℤ) + 1) / 2) ≤ (s : ℤ) + 1 ∧
      (s : ℤ) + 1 ≤ 2 * (((s : ℤ) + 1) / 2) + 1 := by omega
  have hfloor : ⌊(10 * Real.sqrt v + 1 / 2 : ℝ)⌋ = ((s : ℤ) + 1) / 2 := by
    rw [Int.floor_eq_iff]
    constructor
    · have hc : (2 : ℝ) * (((s : ℤ) + 1) / 2 : ℤ) ≤ (s : ℝ) + 1 := by
        exact_mod_cast h2t.1
      linarith
    · have hc : (s : ℝ) + 1 ≤ 2 * (((s : ℤ) + 1) / 2 : ℤ) + 1 := by
        exact_mod_cast h2t.2
      linarith
  rw [hcast, hfloor]

/-- `shortFinalize` never overflows `VShort` on `VShort`-range field
values (`round(10·√32767) = 1810`), so the raw cast in the C code is
the identity and never has to clamp. -/
theorem shortFinalize_le {v : ℕ} (h : v ≤ shortDmax) :
    shortFinalize v ≤ shortDmax := by
  have h1 : isqrt (400 * v) ≤ isqrt (400 * 32767) :=
    isqrt_mono (by simp [shortDmax] at h; omega)
  have h2 : isqrt (400 * 32767) = 3620 :=
    isqrt_unique (by norm_num) (by norm_num)
  simp only [shortFinalize, shortDmax]
  omega

/-! ## Claim theorems -/

/-- C1 (evidence of the code bug): the claim says that for a volume
with exactly one foreground voxel (dimensions ≤ 8×8×8) every
background voxel receives the true Euclidean distance in both
encodings.  Take the 1×4×2 volume `srcOne` (single foreground voxel
at `(0,0,0)`) and the background voxel `(0,3,0)`: the true squared
distance is 9 (distance 3; short encoding `round(10·3) = 30`), but
the float engine's squared field holds 4 (so its output is `√4 = 2`)
and the short engine outputs 28.  The empty-row clamp (`ncols²`,
float) and sentinel (`⌊nrows²/2⌋`, short) are smaller than the true
squared distances through those rows, so the later windowed passes
lock in underestimates. -/
theorem claim_C1 :
    naiveDistSq srcOne ⟨1, 4, 2⟩ 0 3 0 = some 9 ∧
    shortFinalize 9 = 30 ∧
    VEDistFloat3d_sq srcOne ⟨1, 4, 2⟩ 0 3 0 = 4 ∧
    VEDistShort3d_out srcOne ⟨1, 4, 2⟩ 0 3 0 = 28 ∧
    (4 : ℕ) ≠ 9 ∧ (28 : ℕ) ≠ 30 := by decide

/-- C2 counterexample: the claim asserts that the short engine's
empty-row sentinel `0.5·nrows²` is an upper bound on the true minimum
squared distance for every voxel of the empty row.  In the 1×2×4
volume `srcOne` the row `(b,r) = (0,1)` is empty and is filled with
the sentinel `0.5·2² = 2`, but the true minimum squared distance from
voxel `(0,1,3)` is `1 + 9 = 10 > 2`. -/
theorem claim_C2_cx :
    srcOne 0 1 0 = false ∧ srcOne 0 1 1 = false ∧
    srcOne 0 1 2 = false ∧ srcOne 0 1 3 = false ∧
    VEDistShort3d_pass1 srcOne 2 4 0 1 3 = 2 ∧
    naiveDistSq srcOne ⟨1, 2, 4⟩ 0 1 3 = some 10 ∧
    ¬ (10 ≤ 2) := by decide

/-- C2 (amended): in the short engine's column pass, every row
containing no foreground voxel has all of its voxels assigned the
constant `⌊0.5·nrows²⌋` (the value `0.5*nrows*nrows` truncated by the
assignment to a `VShort` lvalue).  The original claim's second half —
that this sentinel always bounds the true minimum squared distance
from above — is refuted by `claim_C2_cx`. -/
theorem claim_C2 (src : Vol) (nrows ncols b r c : ℕ)
    (hempty : ∀ cc, cc < ncols → src b r cc = false) :
    VEDistShort3d_pass1 src nrows ncols b r c = nrows ^ 2 / 2 := by
  have hfg : rowHasFg (src b r) ncols = false := by
    simp only [rowHasFg]
    rw [List.any_eq_false]
    intro x hx
    simp [hempty x (List.mem_range.mp hx)]
  simp [VEDistShort3d_pass1, hfg]

theorem claim_C2_witness :
    VEDistShort3d_pass1 srcOne 2 4 0 1 3 = 2 ^ 2 / 2 :=
  claim_C2 srcOne 2 4 0 1 3 (by decide)

/-- C3 (evidence of the code bug): for the row `[1, 0]` (`ncols = 2`)
at voxel `c = 1`, the backward scan stops at the foreground voxel
`cc2 = 0`, so by the claim `d2 = c - cc2 = 1` and the value written is
`min(d1,d2)² = 1`.  The short engine (clamp condition `cc2 < 0`)
writes 1 as claimed, but the float engine's clamp condition is
`cc2 <= 0`, which also fires when the foreground voxel sits exactly at
column 0, so it clamps `d2` to `ncols = 2` and writes `min(2,2)² = 4`. -/
theorem claim_C3 :
    rowC3 0 = true ∧ scanBwd rowC3 1 = 0 ∧
    colDistShort rowC3 2 1 = 1 ∧
    colDistFloat rowC3 2 1 = 4 ∧
    (4 : ℕ) ≠ 1 := by decide

/-- C4: in both engines, the row-minimization pass writes at every
background voxel `(b,r,c)` the minimum of `scratch[rr] + (r-rr)²`
over the window `[max(0, r-⌊g⌋), min(nrows, r+⌊g⌋+1))` with
`g = √scratch[r]`, where `scratch` is the previous field's lane
`f b · c`; the band pass is structurally identical over the band axis
with lower bound `max(0, b-⌊g⌋-1)` (one extra unit of margin) and the
same `+⌊g⌋+1` upper bound.  `⌊g⌋` is `isqrt`, which equals
`⌊√·⌋ = Nat.sqrt` by `isqrt_eq_natSqrt`; ℕ-subtraction performs the
`max(0, ·)` clamping.  The hypotheses `f b r c ≤ dmax` say the
voxel's own value is representable in the destination type, so the
`dmin = dmax` initialization cannot mask the window minimum. -/
theorem claim_C4 (f : Field) (src : Vol) (nrows nbands b r c : ℕ)
    (hr : r < nrows) (hb : b < nbands) (hbg : src b r c = false)
    (hfs : f b r c ≤ shortDmax) (hff : f b r c ≤ floatDmax) :
    IsMinOver (r - isqrt (f b r c)) (min (r + isqrt (f b r c) + 1) nrows)
      (fun rr => f b rr c + dsq r rr)
      (VEDistFloat3d_pass2 src nrows f b r c) ∧
    IsMinOver (r - isqrt (f b r c)) (min (r + isqrt (f b r c) + 1) nrows)
      (fun rr => f b rr c + dsq r rr)
      (VEDistShort3d_pass2 src nrows f b r c) ∧
    IsMinOver (b - isqrt (f b r c) - 1) (min (b + isqrt (f b r c) + 1) nbands)
      (fun bb => f bb r c + dsq b bb)
      (VEDistFloat3d_pass3 src nbands f b r c) ∧
    IsMinOver (b - isqrt (f b r c) - 1) (min (b + isqrt (f b r c) + 1) nbands)
      (fun bb => f bb r c + dsq b bb)
      (VEDistShort3d_pass3 src nbands f b r c) := by
  refine ⟨?_, ?_, ?_, ?_⟩
  · rw [show VEDistFloat3d_pass2 src nrows f b r c
        = axisMin floatDmax 0 nrows (fun rr => f b rr c) r from by
      simp [VEDistFloat3d_pass2, hbg]]
    exact axisMin_spec floatDmax 0 nrows (fun rr => f b rr c) hr hff
  · rw [show VEDistShort3d_pass2 src nrows f b r c
        = axisMin shortDmax 0 nrows (fun rr => f b rr c) r from by
      simp [VEDistShort3d_pass2, hbg]]
    exact axisMin_spec shortDmax 0 nrows (fun rr => f b rr c) hr hfs
  · rw [show VEDistFloat3d_pass3 src nbands f b r c
        = axisMin floatDmax 1 nbands (fun bb => f bb r c) b from by
      simp [VEDistFloat3d_pass3, hbg]]
    exact axisMin_spec floatDmax 1 nbands (fun bb => f bb r c) hb hff
  · rw [show VEDistShort3d_pass3 src nbands f b r c
        = axisMin shortDmax 1 nbands (fun bb => f bb r c) b from by
      simp [VEDistShort3d_pass3, hbg]]
    exact axisMin_spec shortDmax 1 nbands (fun bb => f bb r c) hb hfs

theorem claim_C4_witness :
    IsMinOver (0 - isqrt (fConst2 0 0 1)) (min (0 + isqrt (fConst2 0 0 1) + 1) 1)
      (fun rr => fConst2 0 rr 1 + dsq 0 rr)
      (VEDistFloat3d_pass2 srcOne 1 fConst2 0 0 1) ∧
    IsMinOver (0 - isqrt (fConst2 0 0 1)) (min (0 + isqrt (fConst2 0 0 1) + 1) 1)
      (fun rr => fConst2 0 rr 1 + dsq 0 rr)
      (VEDistShort3d_pass2 srcOne 1 fConst2 0 0 1) ∧
    IsMinOver (0 - isqrt (fConst2 0 0 1) - 1) (min (0 + isqrt (fConst2 0 0 1) + 1) 1)
      (fun bb => fConst2 bb 0 1 + dsq 0 bb)
      (VEDistFloat3d_pass3 srcOne 1 fConst2 0 0 1) ∧
    IsMinOver (0 - isqrt (fConst2 0 0 1) - 1) (min (0 + isqrt (fConst2 0 0 1) + 1) 1)
      (fun bb => fConst2 bb 0 1 + dsq 0 bb)
      (VEDistShort3d_pass3 srcOne 1 fConst2 0 0 1) :=
  claim_C4 fConst2 srcOne 1 1 0 0 1 (by decide) (by decide) (by decide)
    (by decide) (by decide)

/-- C5: whenever the input image's pixel representation is not
single-bit, the dispatcher fails with `invalidInputKind` before
either engine runs: the result is the error and the caller-supplied
destination buffer is returned unmodified. -/
theorem claim_C5 (src : VImage) (dest : Option VImage) (repn : VRepnKind)
    (h : src.repn ≠ VRepnKind.bit) :
    VEuclideanDist3d src dest repn =
      (Except.error VErr.invalidInputKind, dest) := by
  simp [VEuclideanDist3d, h]

theorem claim_C5_witness :
    VEuclideanDist3d imgU none VRepnKind.short =
      (Except.error VErr.invalidInputKind, none) :=
  claim_C5 imgU none VRepnKind.short (by decide)

/-- C6 (evidence of the code bug): the claim says the transform
commutes with reflection along any single axis in both encodings.
For the float encoding and the column axis it fails on the 1×1×2
volume `[1, 0]` (`srcOne`): the transform of the column-reflected
input holds squared distance 1 at voxel `(0,0,0)` (distance 1), while
the column-reflected transform of the original input holds 4 there
(distance 2) — another consequence of the float engine's `cc2 <= 0`
backward-clamp condition. -/
theorem claim_C6 :
    VEDistFloat3d_sq (reflectCols 2 srcOne) ⟨1, 1, 2⟩ 0 0 0 = 1 ∧
    VEDistFloat3d_sq srcOne ⟨1, 1, 2⟩ 0 0 (2 - 1 - 0) = 4 ∧
    VEDistFloat3d_sq (reflectCols 2 srcOne) ⟨1, 1, 2⟩ 0 0 0 ≠
      VEDistFloat3d_sq srcOne ⟨1, 1, 2⟩ 0 0 (2 - 1 - 0) := by decide

/-- C7: in both engines, after the column pass, after the row pass,
after the band pass, and in the final output, the value at every
foreground voxel is exactly 0 (the float engine's final output is the
square root of its squared field, also 0 there). -/
theorem claim_C7 (src : Vol) (d : VDims) (b r c : ℕ)
    (hb : b < d.nbands) (hr : r < d.nrows) (hc : c < d.ncols)
    (hfg : src b r c = true) :
    VEDistFloat3d_pass1 src d.ncols b r c = 0 ∧
    VEDistFloat3d_pass2 src d.nrows (VEDistFloat3d_pass1 src d.ncols) b r c = 0 ∧
    VEDistFloat3d_sq src d b r c = 0 ∧
    Real.sqrt (VEDistFloat3d_sq src d b r c) = 0 ∧
    VEDistShort3d_pass1 src d.nrows d.ncols b r c = 0 ∧
    VEDistShort3d_pass2 src d.nrows (VEDistShort3d_pass1 src d.nrows d.ncols) b r c = 0 ∧
    VEDistShort3d_sq src d b r c = 0 ∧
    VEDistShort3d_out src d b r c = 0 := by
  have h1 : VEDistFloat3d_pass1 src d.ncols b r c = 0 := by
    simp [VEDistFloat3d_pass1, colDistFloat, hfg]
  have h2 : VEDistFloat3d_pass2 src d.nrows (VEDistFloat3d_pass1 src d.ncols) b r c = 0 := by
    simp [VEDistFloat3d_pass2, hfg, h1]
  have h3 : VEDistFloat3d_sq src d b r c = 0 := by
    simp [VEDistFloat3d_sq, VEDistFloat3d_pass3, hfg, h2]
  have hany : rowHasFg (src b r) d.ncols = true := by
    simp only [rowHasFg, List.any_eq_true]
    exact ⟨c, List.mem_range.mpr hc, hfg⟩
  have h5 : VEDistShort3d_pass1 src d.nrows d.ncols b r c = 0 := by
    simp [VEDistShort3d_pass1, hany, colDistShort, hfg]
  have h6 : VEDistShort3d_pass2 src d.nrows (VEDistShort3d_pass1 src d.nrows d.ncols) b r c = 0 := by
    simp [VEDistShort3d_pass2, hfg, h5]
  have h7 : VEDistShort3d_sq src d b r c = 0 := by
    simp [VEDistShort3d_sq, VEDistShort3d_pass3, hfg, h6]
  refine ⟨h1, h2, h3, by rw [h3]; simp, h5, h6, h7, ?_⟩
  rw [VEDistShort3d_out, h7]
  rfl

theorem claim_C7_witness :
    VEDistFloat3d_pass1 srcOne 1 0 0 0 = 0 ∧
    VEDistFloat3d_pass2 srcOne 1 (VEDistFloat3d_pass1 srcOne 1) 0 0 0 = 0 ∧
    VEDistFloat3d_sq srcOne ⟨1, 1, 1⟩ 0 0 0 = 0 ∧
    Real.sqrt (VEDistFloat3d_sq srcOne ⟨1, 1, 1⟩ 0 0 0) = 0 ∧
    VEDistShort3d_pass1 srcOne 1 1 0 0 0 = 0 ∧
    VEDistShort3d_pass2 srcOne 1 (VEDistShort3d_pass1 srcOne 1 1) 0 0 0 = 0 ∧
    VEDistShort3d_sq srcOne ⟨1, 1, 1⟩ 0 0 0 = 0 ∧
    VEDistShort3d_out srcOne ⟨1, 1, 1⟩ 0 0 0 = 0 :=
  claim_C7 srcOne ⟨1, 1, 1⟩ 0 0 0 (by decide) (by decide) (by decide) (by decide)

/-- C8: the short engine's finalization maps every field value `v` to
`round(10·√v)` with rounding to nearest, ties away from zero
(`⌊10·√v + 1/2⌋` for the non-negative values at hand); on `VShort`
field values the result is at most 1810, so the concluding cast can
never overflow and the claimed clamping is vacuously satisfied.  The
float engine's finalization is the elementwise square root with no
scaling: the output is the non-negative real whose square is the
field value. -/
theorem claim_C8 :
    (∀ v : ℕ, (shortFinalize v : ℤ) = ⌊(10 * Real.sqrt v + 1 / 2 : ℝ)⌋) ∧
    (∀ v : ℕ, v ≤ shortDmax → shortFinalize v ≤ shortDmax) ∧
    (∀ (src : Vol) (d : VDims) (b r c : ℕ),
      VEDistShort3d_out src d b r c
        = shortFinalize (VEDistShort3d_sq src d b r c)) ∧
    (∀ (src : Vol) (d : VDims) (out : ℕ → ℕ → ℕ → ℝ),
      VEDistFloat3d_finalizes src d out →
        ∀ b r c, 0 ≤ out b r c ∧
          out b r c ^ 2 = (VEDistFloat3d_sq src d b r c : ℝ)) :=
  ⟨shortFinalize_eq_round, fun _ h => shortFinalize_le h,
   fun _ _ _ _ _ => rfl,
   fun _ _ out hfin b r c => by
     rw [hfin b r c]
     exact ⟨Real.sqrt_nonneg _, Real.sq_sqrt (by positivity)⟩⟩

theorem claim_C8_witness :
    shortFinalize 2 ≤ shortDmax ∧
    Real.sqrt (VEDistFloat3d_sq srcOne ⟨1, 1, 1⟩ 0 0 0) ^ 2
      = (VEDistFloat3d_sq srcOne ⟨1, 1, 1⟩ 0 0 0 : ℝ) :=
  ⟨claim_C8.2.1 2 (by decide),
   (claim_C8.2.2.2 srcOne ⟨1, 1, 1⟩
      (fun b r c => Real.sqrt (VEDistFloat3d_sq srcOne ⟨1, 1, 1⟩ b r c))
      (fun _ _ _ => rfl) 0 0 0).2⟩

/-- C9: both engines only read the source image; as state
transformers they rewrite the destination field and leave the `src`
component untouched (every assignment in the C functions targets
`dest`, the scratch `array`, or local variables). -/
theorem claim_C9 (s : EngineState) :
    (VEDistShort3d_run s).src = s.src ∧ (VEDistFloat3d_run s).src = s.src :=
  ⟨rfl, rfl⟩

theorem claim_C9_witness :
    (VEDistShort3d_run ⟨imgU, fun _ _ _ => 0⟩).src = imgU ∧
    (VEDistFloat3d_run ⟨imgU, fun _ _ _ => 0⟩).src = imgU :=
  claim_C9 ⟨imgU, fun _ _ _ => 0⟩

/-- C10: in both engines the row- and band-minimization windows always
contain the scanned voxel's own index after clamping, so at every
background voxel the written value is at most the value the voxel held
before the pass, and foreground voxels are skipped (left unchanged).
This holds in the exact integer semantics with no representability
assumption: the claim's assumption is only needed for the C `VShort`
arithmetic to coincide with the exact one. -/
theorem claim_C10 (f : Field) (src : Vol) (nrows nbands b r c : ℕ)
    (hr : r < nrows) (hb : b < nbands) :
    (src b r c = true →
      VEDistFloat3d_pass2 src nrows f b r c = f b r c ∧
      VEDistShort3d_pass2 src nrows f b r c = f b r c ∧
      VEDistFloat3d_pass3 src nbands f b r c = f b r c ∧
      VEDistShort3d_pass3 src nbands f b r c = f b r c) ∧
    (src b r c = false →
      (r - isqrt (f b r c) ≤ r ∧ r < min (r + isqrt (f b r c) + 1) nrows ∧
        b - isqrt (f b r c) - 1 ≤ b ∧ b < min (b + isqrt (f b r c) + 1) nbands) ∧
      VEDistFloat3d_pass2 src nrows f b r c ≤ f b r c ∧
      VEDistShort3d_pass2 src nrows f b r c ≤ f b r c ∧
      VEDistFloat3d_pass3 src nbands f b r c ≤ f b r c ∧
      VEDistShort3d_pass3 src nbands f b r c ≤ f b r c) := by
  constructor
  · intro hfg
    refine ⟨?_, ?_, ?_, ?_⟩ <;>
      simp [VEDistFloat3d_pass2, VEDistShort3d_pass2, VEDistFloat3d_pass3,
        VEDistShort3d_pass3, hfg]
  · intro hbg
    refine ⟨⟨by omega, lt_min_iff.mpr ⟨by omega, hr⟩, by omega,
      lt_min_iff.mpr ⟨by omega, hb⟩⟩, ?_, ?_, ?_, ?_⟩
    · have h := axisMin_le_self floatDmax 0 nrows (fun rr => f b rr c) hr
      simpa [VEDistFloat3d_pass2, hbg] using h
    · have h := axisMin_le_self shortDmax 0 nrows (fun rr => f b rr c) hr
      simpa [VEDistShort3d_pass2, hbg] using h
    · have h := axisMin_le_self floatDmax 1 nbands (fun bb => f bb r c) hb
      simpa [VEDistFloat3d_pass3, hbg] using h
    · have h := axisMin_le_self shortDmax 1 nbands (fun bb => f bb r c) hb
      simpa [VEDistShort3d_pass3, hbg] using h

theorem claim_C10_witness :
    (VEDistFloat3d_pass2 srcOne 1 fConst2 0 0 0 = fConst2 0 0 0 ∧
      VEDistShort3d_pass2 srcOne 1 fConst2 0 0 0 = fConst2 0 0 0 ∧
      VEDistFloat3d_pass3 srcOne 1 fConst2 0 0 0 = fConst2 0 0 0 ∧
      VEDistShort3d_pass3 srcOne 1 fConst2 0 0 0 = fConst2 0 0 0) ∧
    (VEDistFloat3d_pass2 srcOne 1 fConst2 0 0 1 ≤ fConst2 0 0 1 ∧
      VEDistShort3d_pass2 srcOne 1 fConst2 0 0 1 ≤ fConst2 0 0 1 ∧
      VEDistFloat3d_pass3 srcOne 1 fConst2 0 0 1 ≤ fConst2 0 0 1 ∧
      VEDistShort3d_pass3 srcOne 1 fConst2 0 0 1 ≤ fConst2 0 0 1) :=
  ⟨(claim_C10 fConst2 srcOne 1 1 0 0 0 (by decide) (by decide)).1 (by decide),
   ((claim_C10 fConst2 srcOne 1 1 0 0 1 (by decide) (by decide)).2 (by decide)).2⟩

end VIA
